import Mathlib

/-!
Verification development for the PAHFIT feature-table / fitter translation
core (pahfit.fitter, pahfit.model, pahfit.component_models,
pahfit.features.features_format).

The Python source is shallowly embedded: machine floats are modelled as
exact rationals (profile functions that need exp and real powers are
modelled over the reals), numpy masked (value, min, max) triples become a
record holding the three numbers, their three mask bits, and with the two
bound slots able to hold plus or minus infinity; the astropy compound model
becomes a small expression tree whose leaves are the registered components.
Fallible operations return Except values mirroring the raised exceptions.
-/

/- ---------------------------------------------------------------------
   Float-like values for the bound slots of a masked (value,min,max)
   triple: a finite rational, or plus/minus infinity (numpy inf).
   --------------------------------------------------------------------- -/

/-- A float value as stored in a bound slot of the features table: either
finite, or one of the two numpy infinities. -/
inductive FVal
  | fin (q : ℚ)
  | pinf
  | ninf
deriving DecidableEq

/-- np.isinf. -/
def FVal.isinf : FVal → Bool
  | .fin _ => false
  | .pinf => true
  | .ninf => true

/-- Division of a float-like value by a positive rational scalar (used for
the numpy expression `fwhm / 2.355`, which divides data entries of the
masked array, mapping infinities to themselves). -/
def FVal.divPos (c : ℚ) : FVal → FVal
  | .fin q => .fin (q / c)
  | .pinf => .pinf
  | .ninf => .ninf

/-- Multiplication of a float-like value by a positive rational scalar
(used for `row["wavelength"] * (1.0 + redshift)` on a masked array). -/
def FVal.mulPos (c : ℚ) : FVal → FVal
  | .fin q => .fin (q * c)
  | .pinf => .pinf
  | .ninf => .ninf

/- ---------------------------------------------------------------------
   BoundedPar: a numpy masked array of size 3, [value, min, max], with
   its mask bits. This is the (value, lower, upper) format of one
   parameter cell of the features table.
   --------------------------------------------------------------------- -/

/-- One bounded parameter cell of the features table: the data entries
value, lower bound, upper bound, together with the three mask bits of the
masked array (mval for the value slot, mlo and mhi for the bound slots). -/
structure BoundedPar where
  val : ℚ
  lo : FVal
  hi : FVal
  mval : Bool
  mlo : Bool
  mhi : Bool
deriving DecidableEq

/-- Convenience constructor for a fully unmasked triple. -/
def BoundedPar.plain (v : ℚ) (lo hi : FVal) : BoundedPar :=
  { val := v, lo := lo, hi := hi, mval := false, mlo := false, mhi := false }

/-- The numpy expression `t / c` for a masked triple `t` and a positive
scalar `c`: divides the three data entries, keeps the mask. -/
def BoundedPar.divPos (t : BoundedPar) (c : ℚ) : BoundedPar :=
  { t with val := t.val / c, lo := t.lo.divPos c, hi := t.hi.divPos c }

/-- The numpy expression `t * c` for a masked triple `t` and a positive
scalar `c`: multiplies the three data entries, keeps the mask. -/
def BoundedPar.mulPos (t : BoundedPar) (c : ℚ) : BoundedPar :=
  { t with val := t.val * c, lo := t.lo.mulPos c, hi := t.hi.mulPos c }

/-- Modelled from the spec: `pahfit.features.util.bounded_is_fixed` (the
module pahfit/features/util.py is not among the given sources). Per the
spec, a bounded parameter is fixed exactly when both bounds are
explicitly marked absent (masked); the in-source
`BoundedMaskedColumn.is_fixed` (features_format.py) implements the same
convention via `ma.getmask(self)[:, 1:].all(1)`. -/
def bounded_is_fixed (t : BoundedPar) : Bool :=
  t.mlo && t.mhi

/- ---------------------------------------------------------------------
   AstropyFitter._astropy_model_kwargs (fitter.py, lines 550-611).
   --------------------------------------------------------------------- -/

/-- The per-parameter astropy constructor settings produced by
`AstropyFitter._astropy_model_kwargs`: initial value, fixed flag, and the
two bounds (None meaning unbounded). -/
structure ParamSetting where
  value : ℚ
  fixed : Bool
  lowerBound : Option ℚ
  upperBound : Option ℚ
deriving DecidableEq

/-- One entry of the `bounds` kwarg: the source first takes
`0 if value_tuple.mask[i] else value_tuple[i]` and then replaces an
infinite entry by None. -/
def boundEntry (masked : Bool) (v : FVal) : Option ℚ :=
  let limit : FVal := if masked then .fin 0 else v
  match limit with
  | .fin q => some q
  | .pinf => none
  | .ninf => none

/-- The per-parameter body of `AstropyFitter._astropy_model_kwargs`
(fitter.py lines 597-609): the value slot becomes the initial value, the
fixed flag is `True if value_tuple.mask[1] else False`, and the two
bounds are translated by `boundEntry`. -/
def astropy_model_kwargs (t : BoundedPar) : ParamSetting :=
  { value := t.val
    fixed := t.mlo
    lowerBound := boundEntry t.mlo t.lo
    upperBound := boundEntry t.mhi t.hi }

/- ---------------------------------------------------------------------
   Components (the astropy model instances built by the register_*
   functions of AstropyFitter; the model classes themselves live in
   component_models.py).
   --------------------------------------------------------------------- -/

/-- A constructed astropy model instance, with its name and its parameter
settings. One constructor per model class used by AstropyFitter. -/
inductive Component
  | blackBody (nm : String) (temperature amplitude : ParamSetting)
  | modifiedBlackBody (nm : String) (temperature amplitude : ParamSetting)
  | gaussian (nm : String) (amplitude mean stddev : ParamSetting)
  | drude (nm : String) (amplitude x_0 fwhm : ParamSetting)
  | s07Attenuation (nm : String) (tau_sil : ParamSetting)
  | attDrude (nm : String) (tau x_0 fwhm : ParamSetting)
deriving DecidableEq

/-- The `name` attribute of a constructed component. -/
def Component.cname : Component → String
  | .blackBody nm _ _ => nm
  | .modifiedBlackBody nm _ _ => nm
  | .gaussian nm _ _ _ => nm
  | .drude nm _ _ _ => nm
  | .s07Attenuation nm _ => nm
  | .attDrude nm _ _ _ => nm

/-- Attribute access `component.<field>.value` on a component, as used by
`AstropyFitter.get_result`; none when the component class has no such
parameter (which would raise an AttributeError in the source). -/
def Component.paramValue : Component → String → Option ℚ
  | .blackBody _ temperature amplitude, f =>
      if f = "temperature" then some temperature.value
      else if f = "amplitude" then some amplitude.value
      else none
  | .modifiedBlackBody _ temperature amplitude, f =>
      if f = "temperature" then some temperature.value
      else if f = "amplitude" then some amplitude.value
      else none
  | .gaussian _ amplitude mean stddev, f =>
      if f = "amplitude" then some amplitude.value
      else if f = "mean" then some mean.value
      else if f = "stddev" then some stddev.value
      else none
  | .drude _ amplitude x_0 fwhm, f =>
      if f = "amplitude" then some amplitude.value
      else if f = "x_0" then some x_0.value
      else if f = "fwhm" then some fwhm.value
      else none
  | .s07Attenuation _ tau_sil, f =>
      if f = "tau_sil" then some tau_sil.value else none
  | .attDrude _ tau x_0 fwhm, f =>
      if f = "tau" then some tau.value
      else if f = "x_0" then some x_0.value
      else if f = "fwhm" then some fwhm.value
      else none

/- ---------------------------------------------------------------------
   The compound model built by finalize_model: astropy combines models
   with + and *, producing an expression tree whose leaves are the
   registered components.
   --------------------------------------------------------------------- -/

/-- An astropy model expression: a single component, or a compound model
built with + or *. -/
inductive CompoundModel
  | single (c : Component)
  | add (a b : CompoundModel)
  | mul (a b : CompoundModel)
deriving DecidableEq

/-- The leaves of the model expression in order; for a CompoundModel this
is `submodel_names` territory, for a single component it is the component
itself (matching the single-component edge case of
`AstropyFitter.components`). -/
def CompoundModel.submodels : CompoundModel → List Component
  | .single c => [c]
  | .add a b => a.submodels ++ b.submodels
  | .mul a b => a.submodels ++ b.submodels

/-- Pointwise evaluation of the model expression. The evaluation of the
individual astropy model classes is abstracted as the function `ev`
(their formulas live in component_models.py and play no role in the
compound structure); astropy evaluates `m1 + m2` and `m1 * m2` pointwise. -/
noncomputable def CompoundModel.evalWith (ev : Component → ℚ → ℝ) (x : ℚ) :
    CompoundModel → ℝ
  | .single c => ev c x
  | .add a b => a.evalWith ev x + b.evalWith ev x
  | .mul a b => a.evalWith ev x * b.evalWith ev x

/- ---------------------------------------------------------------------
   AstropyFitter session state and its operations (fitter.py).
   --------------------------------------------------------------------- -/

/-- The errors raised by the embedded code (pahfit.errors is consumed as
a plain exception carrier; the constructors name the distinct raise
sites). -/
inductive PahfitError
  | noComponents
  | modelNotFinalized
  | unknownComponent (nm : String)
  | unsupportedComponentType (t : String)
  | unsupportedKind (k : String)
deriving DecidableEq

/-- The state of an AstropyFitter session: the two registration lists,
the name-to-kind dict (as an association list in insertion order, lookup
taking the most recent binding), and the finalized model when
finalize_model has run. -/
structure FitterState where
  additive_components : List Component
  multiplicative_components : List Component
  component_types : List (String × String)
  model : Option CompoundModel
deriving DecidableEq

/-- `AstropyFitter.clear`. -/
def fitterClear : FitterState :=
  { additive_components := []
    multiplicative_components := []
    component_types := []
    model := none }

/-- Dict assignment `self.component_types[name] = kind`: append, with
lookup resolving to the latest binding. -/
def FitterState.setType (s : FitterState) (nm kind : String) : FitterState :=
  { s with component_types := s.component_types ++ [(nm, kind)] }

/-- Dict lookup `self.component_types[name]` (latest binding wins). -/
def FitterState.typeOf (s : FitterState) (nm : String) : Option String :=
  (s.component_types.reverse.find? (fun p => p.1 == nm)).map (·.2)

/-- `AstropyFitter._register_component`: append the constructed component
to the multiplicative or the additive list. -/
def register_component (s : FitterState) (c : Component)
    (multiplicative : Bool) : FitterState :=
  if multiplicative then
    { s with multiplicative_components := s.multiplicative_components ++ [c] }
  else
    { s with additive_components := s.additive_components ++ [c] }

/-- `AstropyFitter.register_starlight`: a BlackBody1D with parameters
temperature and amplitude (the latter from tau). -/
def register_starlight (s : FitterState) (nm : String)
    (temperature tau : BoundedPar) : FitterState :=
  register_component (s.setType nm "starlight")
    (.blackBody nm (astropy_model_kwargs temperature) (astropy_model_kwargs tau))
    false

/-- `AstropyFitter.register_dust_continuum`: a ModifiedBlackBody1D. -/
def register_dust_continuum (s : FitterState) (nm : String)
    (temperature tau : BoundedPar) : FitterState :=
  register_component (s.setType nm "dust_continuum")
    (.modifiedBlackBody nm (astropy_model_kwargs temperature)
      (astropy_model_kwargs tau))
    false

/-- The constant 2.355 in the source text of register_line and
get_result (the fwhm-to-stddev conversion factor). -/
def fwhmToStddevFactor : ℚ := 471 / 200

/-- `AstropyFitter.register_line`: a Gaussian1D with amplitude from
power, mean from wavelength, and stddev from `fwhm / 2.355`. -/
def register_line (s : FitterState) (nm : String)
    (power wavelength fwhm : BoundedPar) : FitterState :=
  register_component (s.setType nm "line")
    (.gaussian nm (astropy_model_kwargs power) (astropy_model_kwargs wavelength)
      (astropy_model_kwargs (fwhm.divPos fwhmToStddevFactor)))
    false

/-- `AstropyFitter.register_dust_feature`: a Drude1D. -/
def register_dust_feature (s : FitterState) (nm : String)
    (power wavelength fwhm : BoundedPar) : FitterState :=
  register_component (s.setType nm "dust_feature")
    (.drude nm (astropy_model_kwargs power) (astropy_model_kwargs wavelength)
      (astropy_model_kwargs fwhm))
    false

/-- `AstropyFitter.register_attenuation`: the S07 component, with
tau_sil from tau; multiplicative. -/
def register_attenuation (s : FitterState) (nm : String)
    (tau : BoundedPar) : FitterState :=
  register_component (s.setType nm "attenuation")
    (.s07Attenuation nm (astropy_model_kwargs tau)) true

/-- `AstropyFitter.register_absorption`: an att_Drude1D; multiplicative. -/
def register_absorption (s : FitterState) (nm : String)
    (tau wavelength fwhm : BoundedPar) : FitterState :=
  register_component (s.setType nm "absorption")
    (.attDrude nm (astropy_model_kwargs tau) (astropy_model_kwargs wavelength)
      (astropy_model_kwargs fwhm)) true

/-- `AstropyFitter.finalize_model` (fitter.py lines 298-313): left-fold
sum of the additive components (`sum(additive[1:], additive[0])`, or the
sole component), raising when the additive list is empty, then repeated
in-place multiplication by each multiplicative component. -/
def finalize_model (s : FitterState) : Except PahfitError FitterState :=
  match s.additive_components with
  | [] => .error .noComponents
  | c :: rest =>
      let base := rest.foldl (fun m d => CompoundModel.add m (.single d))
        (CompoundModel.single c)
      let full := s.multiplicative_components.foldl
        (fun m d => CompoundModel.mul m (.single d)) base
      .ok { s with model := some full }

/-- `AstropyFitter.components`: the names of the registered components,
read from the finalized model (submodel names, or the single name in the
single-component edge case). -/
def fitter_components (s : FitterState) : List String :=
  match s.model with
  | some m => m.submodels.map Component.cname
  | none => []

/-- Helper for get_result: read an attribute value off a component,
raising (AttributeError territory) when absent. -/
def getAttrValue (c : Component) (f : String) : Except PahfitError ℚ :=
  match c.paramValue f with
  | some v => .ok v
  | none => .error (.unknownComponent f)

/-- `AstropyFitter.get_result` (fitter.py lines 488-548): look the
component up by name in the finalized model, then build the
kind-appropriate dict of PAHFIT-vocabulary values, converting stddev back
to fwhm via `* 2.355`. -/
def get_result (s : FitterState) (component_name : String) :
    Except PahfitError (List (String × ℚ)) :=
  match s.model with
  | none => .error .modelNotFinalized
  | some m =>
    match m.submodels.find? (fun c => c.cname == component_name) with
    | none => .error (.unknownComponent component_name)
    | some component =>
      match s.typeOf component_name with
      | none => .error (.unknownComponent component_name)
      | some c_type =>
        if c_type = "starlight" ∨ c_type = "dust_continuum" then do
          let t ← getAttrValue component "temperature"
          let a ← getAttrValue component "amplitude"
          return [("temperature", t), ("tau", a)]
        else if c_type = "line" then do
          let a ← getAttrValue component "amplitude"
          let mn ← getAttrValue component "mean"
          let sd ← getAttrValue component "stddev"
          return [("power", a), ("wavelength", mn),
                  ("fwhm", sd * fwhmToStddevFactor)]
        else if c_type = "dust_feature" then do
          let a ← getAttrValue component "amplitude"
          let x0 ← getAttrValue component "x_0"
          let fw ← getAttrValue component "fwhm"
          return [("power", a), ("wavelength", x0), ("fwhm", fw)]
        else if c_type = "attenuation" then do
          let t ← getAttrValue component "tau_sil"
          return [("tau", t)]
        else if c_type = "absorption" then do
          let t ← getAttrValue component "tau"
          let x0 ← getAttrValue component "x_0"
          let fw ← getAttrValue component "fwhm"
          return [("tau", t), ("wavelength", x0), ("fwhm", fw)]
        else .error (.unsupportedComponentType c_type)

/- ---------------------------------------------------------------------
   Registration sequences: one constructor per register_* function, so
   that arbitrary interleavings of additive and multiplicative
   registrations can be reasoned about.
   --------------------------------------------------------------------- -/

/-- One call to a register_* function of the fitter, with its arguments. -/
inductive RegisterCall
  | starlight (nm : String) (temperature tau : BoundedPar)
  | dustContinuum (nm : String) (temperature tau : BoundedPar)
  | line (nm : String) (power wavelength fwhm : BoundedPar)
  | dustFeature (nm : String) (power wavelength fwhm : BoundedPar)
  | attenuation (nm : String) (tau : BoundedPar)
  | absorption (nm : String) (tau wavelength fwhm : BoundedPar)
deriving DecidableEq

/-- Dispatch a registration call to the corresponding register_* function. -/
def applyCall (s : FitterState) : RegisterCall → FitterState
  | .starlight nm temperature tau => register_starlight s nm temperature tau
  | .dustContinuum nm temperature tau => register_dust_continuum s nm temperature tau
  | .line nm power wavelength fwhm => register_line s nm power wavelength fwhm
  | .dustFeature nm power wavelength fwhm => register_dust_feature s nm power wavelength fwhm
  | .attenuation nm tau => register_attenuation s nm tau
  | .absorption nm tau wavelength fwhm => register_absorption s nm tau wavelength fwhm

/-- Run a whole sequence of registration calls. -/
def applyCalls (s : FitterState) (calls : List RegisterCall) : FitterState :=
  calls.foldl applyCall s

/-- Whether the call lands on the multiplicative list (attenuation and
absorption) rather than the additive one. -/
def RegisterCall.isMultiplicative : RegisterCall → Bool
  | .attenuation _ _ => true
  | .absorption _ _ _ _ => true
  | _ => false

/-- The component that the corresponding register_* function constructs. -/
def compileCall : RegisterCall → Component
  | .starlight nm temperature tau =>
      .blackBody nm (astropy_model_kwargs temperature) (astropy_model_kwargs tau)
  | .dustContinuum nm temperature tau =>
      .modifiedBlackBody nm (astropy_model_kwargs temperature) (astropy_model_kwargs tau)
  | .line nm power wavelength fwhm =>
      .gaussian nm (astropy_model_kwargs power) (astropy_model_kwargs wavelength)
        (astropy_model_kwargs (fwhm.divPos fwhmToStddevFactor))
  | .dustFeature nm power wavelength fwhm =>
      .drude nm (astropy_model_kwargs power) (astropy_model_kwargs wavelength)
        (astropy_model_kwargs fwhm)
  | .attenuation nm tau => .s07Attenuation nm (astropy_model_kwargs tau)
  | .absorption nm tau wavelength fwhm =>
      .attDrude nm (astropy_model_kwargs tau) (astropy_model_kwargs wavelength)
        (astropy_model_kwargs fwhm)

theorem applyCall_additive (s : FitterState) (c : RegisterCall) :
    (applyCall s c).additive_components =
      s.additive_components ++
        (if c.isMultiplicative then [] else [compileCall c]) := by
  cases c <;>
    simp [applyCall, register_starlight, register_dust_continuum, register_line,
      register_dust_feature, register_attenuation, register_absorption,
      register_component, FitterState.setType, RegisterCall.isMultiplicative,
      compileCall]

theorem applyCall_multiplicative (s : FitterState) (c : RegisterCall) :
    (applyCall s c).multiplicative_components =
      s.multiplicative_components ++
        (if c.isMultiplicative then [compileCall c] else []) := by
  cases c <;>
    simp [applyCall, register_starlight, register_dust_continuum, register_line,
      register_dust_feature, register_attenuation, register_absorption,
      register_component, FitterState.setType, RegisterCall.isMultiplicative,
      compileCall]

theorem applyCalls_additive (calls : List RegisterCall) :
    ∀ s : FitterState, (applyCalls s calls).additive_components =
      s.additive_components ++
        ((calls.filter (fun c => !c.isMultiplicative)).map compileCall) := by
  induction calls with
  | nil => intro s; simp [applyCalls]
  | cons c rest ih =>
      intro s
      have step := applyCall_additive s c
      by_cases hm : c.isMultiplicative
      · simpa [applyCalls, List.foldl_cons, hm, step] using ih (applyCall s c)
      · have : (applyCalls (applyCall s c) rest).additive_components =
            (applyCall s c).additive_components ++
              ((rest.filter (fun c => !c.isMultiplicative)).map compileCall) :=
          ih (applyCall s c)
        simp [applyCalls, List.foldl_cons] at this ⊢
        simp [this, step, hm]

theorem applyCalls_multiplicative (calls : List RegisterCall) :
    ∀ s : FitterState, (applyCalls s calls).multiplicative_components =
      s.multiplicative_components ++
        ((calls.filter (fun c => c.isMultiplicative)).map compileCall) := by
  induction calls with
  | nil => intro s; simp [applyCalls]
  | cons c rest ih =>
      intro s
      have step := applyCall_multiplicative s c
      by_cases hm : c.isMultiplicative
      · have : (applyCalls (applyCall s c) rest).multiplicative_components =
            (applyCall s c).multiplicative_components ++
              ((rest.filter (fun c => c.isMultiplicative)).map compileCall) :=
          ih (applyCall s c)
        simp [applyCalls, List.foldl_cons] at this ⊢
        simp [this, step, hm]
      · simpa [applyCalls, List.foldl_cons, hm, step] using ih (applyCall s c)

/- Helper lemmas about the folds used in finalize_model. -/

theorem submodels_foldl_add (l : List Component) :
    ∀ base : CompoundModel,
      (l.foldl (fun m d => CompoundModel.add m (.single d)) base).submodels =
        base.submodels ++ l := by
  induction l with
  | nil => intro base; simp
  | cons c rest ih =>
      intro base
      simp [List.foldl_cons, ih, CompoundModel.submodels]

theorem submodels_foldl_mul (l : List Component) :
    ∀ base : CompoundModel,
      (l.foldl (fun m d => CompoundModel.mul m (.single d)) base).submodels =
        base.submodels ++ l := by
  induction l with
  | nil => intro base; simp
  | cons c rest ih =>
      intro base
      simp [List.foldl_cons, ih, CompoundModel.submodels]

theorem evalWith_foldl_add (ev : Component → ℚ → ℝ) (x : ℚ) (l : List Component) :
    ∀ base : CompoundModel,
      (l.foldl (fun m d => CompoundModel.add m (.single d)) base).evalWith ev x =
        base.evalWith ev x + (l.map (fun c => ev c x)).sum := by
  induction l with
  | nil => intro base; simp [CompoundModel.evalWith]
  | cons c rest ih =>
      intro base
      simp [List.foldl_cons, ih, CompoundModel.evalWith]
      ring

theorem evalWith_foldl_mul (ev : Component → ℚ → ℝ) (x : ℚ) (l : List Component) :
    ∀ base : CompoundModel,
      (l.foldl (fun m d => CompoundModel.mul m (.single d)) base).evalWith ev x =
        base.evalWith ev x * (l.map (fun c => ev c x)).prod := by
  induction l with
  | nil => intro base; simp [CompoundModel.evalWith]
  | cons c rest ih =>
      intro base
      simp [List.foldl_cons, ih, CompoundModel.evalWith]
      ring

theorem finalize_model_nil (s : FitterState) (h : s.additive_components = []) :
    finalize_model s = .error .noComponents := by
  unfold finalize_model
  rw [h]

theorem finalize_model_cons (s : FitterState) (c : Component)
    (cs : List Component) (h : s.additive_components = c :: cs) :
    finalize_model s =
      .ok { s with model := some (s.multiplicative_components.foldl
        (fun m d => CompoundModel.mul m (.single d))
        (cs.foldl (fun m d => CompoundModel.add m (.single d)) (.single c))) } := by
  unfold finalize_model
  rw [h]

/-- Claim C3: after a sequence of register_* calls containing at least
one additive registration, finalize_model succeeds and the composite
model evaluates, at every wavelength and for every component evaluation
function, to the sum of the additively registered components times the
product of the multiplicatively registered components, depending only on
the additive/multiplicative split of the call sequence and not on the
interleaving; with exactly one additive component and no multiplicative
ones, the composite is that single component alone. -/
theorem finalize_sum_times_product (calls : List RegisterCall)
    (h : calls.filter (fun c => !c.isMultiplicative) ≠ []) :
    ∃ m : CompoundModel,
      finalize_model (applyCalls fitterClear calls) =
        .ok { applyCalls fitterClear calls with model := some m } ∧
      (∀ (ev : Component → ℚ → ℝ) (x : ℚ),
        m.evalWith ev x =
          ((calls.filter (fun c => !c.isMultiplicative)).map
              (fun c => ev (compileCall c) x)).sum *
          ((calls.filter (fun c => c.isMultiplicative)).map
              (fun c => ev (compileCall c) x)).prod) ∧
      (∀ c : RegisterCall,
        calls.filter (fun c => !c.isMultiplicative) = [c] →
        calls.filter (fun c => c.isMultiplicative) = [] →
        m = .single (compileCall c)) := by
  have hA := applyCalls_additive calls fitterClear
  have hM := applyCalls_multiplicative calls fitterClear
  rw [show fitterClear.additive_components = [] from rfl, List.nil_append] at hA
  rw [show fitterClear.multiplicative_components = [] from rfl, List.nil_append] at hM
  cases hfa : calls.filter (fun c => !c.isMultiplicative) with
  | nil => exact absurd hfa h
  | cons a rest =>
      rw [hfa] at hA
      simp only [List.map_cons] at hA
      refine ⟨((applyCalls fitterClear calls).multiplicative_components).foldl
          (fun m d => CompoundModel.mul m (.single d))
          ((rest.map compileCall).foldl
            (fun m d => CompoundModel.add m (.single d))
            (.single (compileCall a))), ?_, ?_, ?_⟩
      · exact finalize_model_cons _ (compileCall a) (rest.map compileCall) hA
      · intro ev x
        rw [hM, evalWith_foldl_mul, evalWith_foldl_add]
        simp [CompoundModel.evalWith, List.map_map, Function.comp_def]
      · intro c hone hmul
        injection hone with h1 h2
        subst h1
        subst h2
        rw [hM, hmul]
        simp

/-- Claim C6: for every registration sequence, finalize_model fails with
the no-components error exactly when the sequence contains zero additive
registrations; in particular a session that registered only
multiplicative components (attenuation/absorption) still fails. -/
theorem finalize_no_components_iff (calls : List RegisterCall) :
    ((finalize_model (applyCalls fitterClear calls) = .error .noComponents) ↔
      calls.filter (fun c => !c.isMultiplicative) = []) ∧
    ((∀ c ∈ calls, c.isMultiplicative = true) →
      finalize_model (applyCalls fitterClear calls) = .error .noComponents) := by
  have hA := applyCalls_additive calls fitterClear
  rw [show fitterClear.additive_components = [] from rfl, List.nil_append] at hA
  have hiff : (finalize_model (applyCalls fitterClear calls) =
      .error .noComponents) ↔
      calls.filter (fun c => !c.isMultiplicative) = [] := by
    constructor
    · intro herr
      cases hfa : calls.filter (fun c => !c.isMultiplicative) with
      | nil => rfl
      | cons a rest =>
          rw [hfa, List.map_cons] at hA
          rw [finalize_model_cons _ _ _ hA] at herr
          exact absurd herr (by simp)
    · intro hempty
      apply finalize_model_nil
      rw [hA, hempty]
      rfl
  refine ⟨hiff, fun hall => hiff.mpr ?_⟩
  rw [List.filter_eq_nil_iff]
  intro c hc
  simp [hall c hc]

theorem register_line_additive (s : FitterState) (nm : String)
    (power wavelength fwhm : BoundedPar) :
    (register_line s nm power wavelength fwhm).additive_components =
      s.additive_components ++
        [.gaussian nm (astropy_model_kwargs power)
          (astropy_model_kwargs wavelength)
          (astropy_model_kwargs (fwhm.divPos fwhmToStddevFactor))] := by
  simp [register_line, register_component, FitterState.setType]

theorem register_line_multiplicative (s : FitterState) (nm : String)
    (power wavelength fwhm : BoundedPar) :
    (register_line s nm power wavelength fwhm).multiplicative_components =
      s.multiplicative_components := by
  simp [register_line, register_component, FitterState.setType]

theorem register_line_types (s : FitterState) (nm : String)
    (power wavelength fwhm : BoundedPar) :
    (register_line s nm power wavelength fwhm).component_types =
      s.component_types ++ [(nm, "line")] := by
  simp [register_line, register_component, FitterState.setType]

/-- Looking up a name in a leaf list whose prefix misses it finds the
first matching later component. -/
theorem find_name_in_middle (l1 l2 : List Component) (g : Component)
    (nm : String) (h1 : ∀ c ∈ l1, c.cname ≠ nm) (hg : g.cname = nm) :
    ((l1 ++ g :: l2).find? (fun c => c.cname == nm)) = some g := by
  rw [List.find?_append]
  have hnone : l1.find? (fun c => c.cname == nm) = none :=
    List.find?_eq_none.2 (fun x hx => by simpa using h1 x hx)
  rw [hnone]
  simp [hg]

/-- Claim C1: round-trip losslessness for a registered line. Register a
line on any session whose additive components do not already use the
name, finalize, and before any fit: get_result returns exactly the
registered power, wavelength and fwhm values; the fwhm/2.355 conversion
at registration and the stddev*2.355 conversion at extraction compose to
the identity. -/
theorem register_line_get_result_roundtrip (s : FitterState) (nm : String)
    (power wavelength fwhm : BoundedPar)
    (h : ∀ c ∈ s.additive_components, c.cname ≠ nm) :
    ∃ s' : FitterState,
      finalize_model (register_line s nm power wavelength fwhm) = .ok s' ∧
      get_result s' nm = .ok
        [("power", power.val), ("wavelength", wavelength.val),
         ("fwhm", fwhm.val)] := by
  set G : Component := .gaussian nm (astropy_model_kwargs power)
    (astropy_model_kwargs wavelength)
    (astropy_model_kwargs (fwhm.divPos fwhmToStddevFactor)) with hG
  have hadd := register_line_additive s nm power wavelength fwhm
  have hmul := register_line_multiplicative s nm power wavelength fwhm
  have htypes := register_line_types s nm power wavelength fwhm
  -- the additive list ends in G, so finalize succeeds
  cases hsa : s.additive_components with
  | nil =>
      rw [hsa, List.nil_append] at hadd
      refine ⟨_, finalize_model_cons _ G [] hadd, ?_⟩
      rw [get_result]
      simp only [hmul, htypes]
      rw [submodels_foldl_mul]
      simp only [CompoundModel.submodels, List.singleton_append]
      rw [show (G :: s.multiplicative_components).find?
            (fun c => c.cname == nm) = some G from by
        simpa using find_name_in_middle [] s.multiplicative_components G nm
          (by intro c hc; cases hc) (by simp [hG, Component.cname])]
      have hdm : fwhm.val / fwhmToStddevFactor * fwhmToStddevFactor = fwhm.val :=
        div_mul_cancel₀ fwhm.val (by norm_num [fwhmToStddevFactor])
      simp [FitterState.typeOf, getAttrValue, Component.paramValue, hG,
        astropy_model_kwargs, BoundedPar.divPos, hdm]
      rfl
  | cons a t =>
      rw [hsa] at hadd
      have hadd' : (register_line s nm power wavelength fwhm).additive_components
          = a :: (t ++ [G]) := by rw [hadd]; rfl
      refine ⟨_, finalize_model_cons _ a (t ++ [G]) hadd', ?_⟩
      rw [get_result]
      simp only [hmul, htypes]
      rw [submodels_foldl_mul, submodels_foldl_add]
      simp only [CompoundModel.submodels, List.singleton_append]
      have hnames : ∀ c ∈ a :: t, c.cname ≠ nm := by
        intro c hc
        exact h c (by rw [hsa]; exact hc)
      rw [show ((a :: (t ++ [G])) ++ s.multiplicative_components).find?
            (fun c => c.cname == nm) = some G from by
        have : (a :: (t ++ [G])) ++ s.multiplicative_components =
            (a :: t) ++ G :: s.multiplicative_components := by simp
        rw [this]
        exact find_name_in_middle (a :: t) s.multiplicative_components G nm
          hnames (by simp [hG, Component.cname])]
      have hdm : fwhm.val / fwhmToStddevFactor * fwhmToStddevFactor = fwhm.val :=
        div_mul_cancel₀ fwhm.val (by norm_num [fwhmToStddevFactor])
      simp [FitterState.typeOf, getAttrValue, Component.paramValue, hG,
        astropy_model_kwargs, BoundedPar.divPos, hdm]
      rfl

/-- Counterexample to claim C2 as stated: the bounded triple with value 1
and bounds (0, 2) whose lower bound alone is masked is marked fixed by
the registration conversion, even though not both of its bounds are
masked, so fixed does not hold iff both bounds are masked. -/
theorem fixed_without_both_masked_counterexample :
    (astropy_model_kwargs ⟨1, .fin 0, .fin 2, false, true, false⟩).fixed = true ∧
    ¬ (bounded_is_fixed ⟨1, .fin 0, .fin 2, false, true, false⟩ = true) := by
  decide

/-- Claim C2 (amended): a parameter passed to a register_* call is marked
fixed exactly when the lower bound slot of its (value,min,max) triple is
masked, regardless of the upper bound mask; in particular a triple with
both bounds masked is still fixed, but one with only the lower bound
masked is fixed as well, and one with only the upper bound masked is
not. -/
theorem astropy_kwargs_fixed_iff_lower_masked (t : BoundedPar) :
    ((astropy_model_kwargs t).fixed = true ↔ t.mlo = true) ∧
    (bounded_is_fixed t = true → (astropy_model_kwargs t).fixed = true) := by
  refine ⟨by simp [astropy_model_kwargs], fun hf => ?_⟩
  simp only [bounded_is_fixed, Bool.and_eq_true] at hf
  simp [astropy_model_kwargs, hf.1]

/-- Witness: the amended C2 theorem applied to a concrete triple with
both bounds masked. -/
theorem astropy_kwargs_fixed_iff_lower_masked_witness :
    (astropy_model_kwargs ⟨1, .fin 0, .fin 2, false, true, true⟩).fixed = true :=
  (astropy_kwargs_fixed_iff_lower_masked _).2 (by decide)

/-- Witness: the C1 round-trip applied to a fresh session and a concrete
line (power 5, wavelength 10, fixed fwhm 3). -/
theorem register_line_get_result_roundtrip_witness :
    ∃ s' : FitterState,
      finalize_model (register_line fitterClear "H2_S1"
        (BoundedPar.plain 5 (.fin 0) .pinf)
        (BoundedPar.plain 10 (.fin 9) (.fin 11))
        ⟨3, .fin 0, .fin 0, false, true, true⟩) = .ok s' ∧
      get_result s' "H2_S1" = .ok
        [("power", 5), ("wavelength", 10), ("fwhm", 3)] :=
  register_line_get_result_roundtrip fitterClear "H2_S1" _ _ _ (by decide)

/-- Concrete interleaved registration sequence for the C3 witness. -/
def c3WitnessCalls : List RegisterCall :=
  [.attenuation "att" (BoundedPar.plain 1 (.fin 0) (.fin 10)),
   .dustFeature "df" (BoundedPar.plain 5 (.fin 0) .pinf)
     (BoundedPar.plain 10 (.fin 9) (.fin 11)) (BoundedPar.plain 3 (.fin 1) (.fin 4))]

/-- Witness: the C3 structure theorem applied to a concrete session that
registers an attenuation first and a dust feature second. -/
theorem finalize_sum_times_product_witness :
    ∃ m : CompoundModel,
      finalize_model (applyCalls fitterClear c3WitnessCalls) =
        .ok { applyCalls fitterClear c3WitnessCalls with model := some m } ∧
      (∀ (ev : Component → ℚ → ℝ) (x : ℚ),
        m.evalWith ev x =
          ((c3WitnessCalls.filter (fun c => !c.isMultiplicative)).map
              (fun c => ev (compileCall c) x)).sum *
          ((c3WitnessCalls.filter (fun c => c.isMultiplicative)).map
              (fun c => ev (compileCall c) x)).prod) ∧
      (∀ c : RegisterCall,
        c3WitnessCalls.filter (fun c => !c.isMultiplicative) = [c] →
        c3WitnessCalls.filter (fun c => c.isMultiplicative) = [] →
        m = .single (compileCall c)) :=
  finalize_sum_times_product c3WitnessCalls (by decide)

/-- Concrete multiplicative-only registration sequence for the C6
witness. -/
def c6WitnessCalls : List RegisterCall :=
  [.attenuation "att" (BoundedPar.plain 1 (.fin 0) (.fin 10)),
   .absorption "H2O" (BoundedPar.plain 1 (.fin 0) (.fin 3))
     (BoundedPar.plain 10 (.fin 9) (.fin 11)) (BoundedPar.plain 3 (.fin 1) (.fin 4))]

/-- Witness: the C6 theorem applied to a session that registers only
multiplicative components, which still fails to finalize. -/
theorem finalize_no_components_iff_witness :
    finalize_model (applyCalls fitterClear c6WitnessCalls) =
      .error .noComponents :=
  (finalize_no_components_iff c6WitnessCalls).2 (by decide)

/- ---------------------------------------------------------------------
   The features table (pahfit.features): rows with a name, a kind, and
   the five bounded parameter columns used by the model orchestrator.
   --------------------------------------------------------------------- -/

/-- The bounded parameter columns of the features table. -/
inductive ParamCol
  | temperature
  | tau
  | power
  | wavelength
  | fwhm
deriving DecidableEq

/-- One row of the features table. -/
structure FeatureRow where
  fname : String
  kind : String
  temperature : BoundedPar
  tau : BoundedPar
  power : BoundedPar
  wavelength : BoundedPar
  fwhm : BoundedPar
deriving DecidableEq

/-- Column access `row[col]`. -/
def FeatureRow.getPar (r : FeatureRow) : ParamCol → BoundedPar
  | .temperature => r.temperature
  | .tau => r.tau
  | .power => r.power
  | .wavelength => r.wavelength
  | .fwhm => r.fwhm

/-- The in-place update `row[col][0] = v`: overwrite only the value slot
of the bounded triple, leaving bounds and masks untouched. -/
def FeatureRow.setParVal (r : FeatureRow) (c : ParamCol) (v : ℚ) : FeatureRow :=
  match c with
  | .temperature => { r with temperature := { r.temperature with val := v } }
  | .tau => { r with tau := { r.tau with val := v } }
  | .power => { r with power := { r.power with val := v } }
  | .wavelength => { r with wavelength := { r.wavelength with val := v } }
  | .fwhm => { r with fwhm := { r.fwhm with val := v } }

/-- String column names, as used by the Python table indexing. -/
def colOfString (c : String) : Option ParamCol :=
  if c = "temperature" then some .temperature
  else if c = "tau" then some .tau
  else if c = "power" then some .power
  else if c = "wavelength" then some .wavelength
  else if c = "fwhm" then some .fwhm
  else none

/-- Column access `row[col]` by string name. -/
def FeatureRow.getCol? (r : FeatureRow) (c : String) : Option BoundedPar :=
  (colOfString c).map r.getPar

/-- The update `row[col][0] = v` by string name (a name outside the five
parameter columns would be a KeyError in the source and never occurs). -/
def FeatureRow.setColVal (r : FeatureRow) (c : String) (v : ℚ) : FeatureRow :=
  match colOfString c with
  | some pc => r.setParVal pc v
  | none => r

/- ---------------------------------------------------------------------
   Model._excluded_features (model.py lines 775-795).
   --------------------------------------------------------------------- -/

/-- `Model._excluded_features` for one row: shift the stored wavelength
to the observed frame, test it against the instrument segments (the
instrument collaborator is the injected function withinSeg), and allow
exclusion only for the three excludable kinds. -/
def excluded_features (withinSeg : ℚ → Bool) (redshift : ℚ)
    (row : FeatureRow) : Bool :=
  let observed_wav := row.wavelength.val * (1 + redshift)
  let is_outside := !(withinSeg observed_wav)
  let is_excludable := (row.kind == "line") || (row.kind == "dust_feature")
    || (row.kind == "absorption")
  is_outside && is_excludable

/- ---------------------------------------------------------------------
   Model._ingest_fit_result_to_features (model.py lines 407-422).
   --------------------------------------------------------------------- -/

/-- The inner loop of ingest: `for column, value in
fitter.get_result(name).items(): features.loc[name][column][0] = value`,
applied to one row. -/
def update_row_with_result (results : List (String × ℚ))
    (row : FeatureRow) : FeatureRow :=
  results.foldl (fun r p => r.setColVal p.1 p.2) row

/-- The outer loop of ingest over `fitter.components()`. The table is
name-indexed with unique names; `features.loc[name]` is modelled by
updating the rows whose name matches. A get_result failure propagates as
the raised exception would. -/
def ingestGo (s : FitterState) :
    List String → List FeatureRow → Except PahfitError (List FeatureRow)
  | [], t => .ok t
  | nm :: rest, t =>
      match get_result s nm with
      | .error e => .error e
      | .ok results =>
          ingestGo s rest (t.map (fun row =>
            if row.fname == nm then update_row_with_result results row
            else row))

/-- `Model._ingest_fit_result_to_features`. -/
def ingest_fit_result_to_features (s : FitterState)
    (tbl : List FeatureRow) : Except PahfitError (List FeatureRow) :=
  ingestGo s (fitter_components s) tbl

theorem setParVal_fname (r : FeatureRow) (c : ParamCol) (v : ℚ) :
    (r.setParVal c v).fname = r.fname := by
  cases c <;> rfl

theorem setColVal_fname (r : FeatureRow) (c : String) (v : ℚ) :
    (r.setColVal c v).fname = r.fname := by
  unfold FeatureRow.setColVal
  cases colOfString c <;> simp [setParVal_fname]

theorem update_row_fname (results : List (String × ℚ)) :
    ∀ row : FeatureRow, (update_row_with_result results row).fname = row.fname := by
  induction results with
  | nil => intro row; rfl
  | cons p rest ih =>
      intro row
      show (update_row_with_result rest (row.setColVal p.1 p.2)).fname = row.fname
      rw [ih, setColVal_fname]

theorem ingestGo_spec (s : FitterState) :
    ∀ names : List String, names.Nodup →
    ∀ tbl tbl' : List FeatureRow, ingestGo s names tbl = .ok tbl' →
      tbl'.length = tbl.length ∧
      (∀ i row, tbl.get? i = some row → row.fname ∉ names →
        tbl'.get? i = some row) ∧
      (∀ i row, tbl.get? i = some row → row.fname ∈ names →
        ∃ res, get_result s row.fname = .ok res ∧
          tbl'.get? i = some (update_row_with_result res row)) := by
  intro names
  induction names with
  | nil =>
      intro _ tbl tbl' h
      simp only [ingestGo] at h
      cases h
      exact ⟨rfl, fun i row hi _ => hi,
        fun i row _ hmem => absurd hmem (by simp)⟩
  | cons nm rest ih =>
      intro hnd tbl tbl' h
      rw [List.nodup_cons] at hnd
      cases hr : get_result s nm with
      | error e => rw [ingestGo, hr] at h; cases h
      | ok results =>
          rw [ingestGo, hr] at h
          obtain ⟨hlen, hnot, hin⟩ := ih hnd.2 _ tbl' h
          refine ⟨by rw [hlen, List.length_map], ?_, ?_⟩
          · intro i row hi hmem
            have hne : row.fname ≠ nm := fun hc => hmem (by rw [hc]; simp)
            have hmr : (tbl.map (fun row =>
                if row.fname == nm then update_row_with_result results row
                else row)).get? i = some row := by
              rw [List.get?_map, hi]
              simp [hne]
            exact hnot i row hmr (fun hc => hmem (by simp [hc]))
          · intro i row hi hmem
            by_cases hq : row.fname = nm
            · have hmr : (tbl.map (fun row =>
                  if row.fname == nm then update_row_with_result results row
                  else row)).get? i = some (update_row_with_result results row) := by
                rw [List.get?_map, hi]
                simp [hq]
              have hnm : (update_row_with_result results row).fname ∉ rest := by
                rw [update_row_fname, hq]
                exact hnd.1
              refine ⟨results, by rw [hq]; exact hr, ?_⟩
              exact hnot i _ hmr hnm
            · have hmr : (tbl.map (fun row =>
                  if row.fname == nm then update_row_with_result results row
                  else row)).get? i = some row := by
                rw [List.get?_map, hi]
                simp [hq]
              have hrest : row.fname ∈ rest := by
                cases hmem with
                | head => exact absurd rfl hq
                | tail _ hm => exact hm
              exact hin i row hmr hrest

/-- Claim C5: after ingest, every row whose name is in
fitter.components() is the original row with the get_result values
written into the value slots of the listed columns, and every other row
is returned bit-identical (in particular every excluded feature keeps
its pre-fit stored values). Needs the component names to be unique, as
astropy requires for submodel names. -/
theorem ingest_updates_components_only (s : FitterState)
    (tbl tbl' : List FeatureRow)
    (hnd : (fitter_components s).Nodup)
    (h : ingest_fit_result_to_features s tbl = .ok tbl') :
    tbl'.length = tbl.length ∧
    (∀ i row, tbl.get? i = some row → row.fname ∉ fitter_components s →
      tbl'.get? i = some row) ∧
    (∀ i row, tbl.get? i = some row → row.fname ∈ fitter_components s →
      ∃ res, get_result s row.fname = .ok res ∧
        tbl'.get? i = some (update_row_with_result res row)) :=
  ingestGo_spec s (fitter_components s) hnd tbl tbl' h

/-- Concrete finalized fitter (one registered line) for the C5 witness. -/
def c5Fitter : FitterState :=
  match finalize_model (register_line fitterClear "l1"
    (BoundedPar.plain 5 (.fin 0) .pinf)
    (BoundedPar.plain 10 (.fin 9) (.fin 11))
    (BoundedPar.plain 3 (.fin 1) (.fin 4))) with
  | .ok s => s
  | .error _ => fitterClear

/-- Concrete table for the C5 witness: the registered line plus an
unregistered (excluded) line. -/
def c5Tbl : List FeatureRow :=
  [⟨"l1", "line", BoundedPar.plain 0 .ninf .pinf, BoundedPar.plain 0 .ninf .pinf,
     BoundedPar.plain 1 (.fin 0) .pinf, BoundedPar.plain 9 (.fin 8) (.fin 12),
     BoundedPar.plain 2 (.fin 1) (.fin 4)⟩,
   ⟨"l_out", "line", BoundedPar.plain 0 .ninf .pinf, BoundedPar.plain 0 .ninf .pinf,
     BoundedPar.plain 7 (.fin 0) .pinf, BoundedPar.plain 99 (.fin 98) (.fin 100),
     BoundedPar.plain 2 (.fin 1) (.fin 4)⟩]

/-- The expected table after ingest for the C5 witness: the first row
with the fitted values written into the value slots, the second row
bit-identical. -/
def c5TblAfter : List FeatureRow :=
  [⟨"l1", "line", BoundedPar.plain 0 .ninf .pinf, BoundedPar.plain 0 .ninf .pinf,
     ⟨5, .fin 0, .pinf, false, false, false⟩, ⟨10, .fin 8, .fin 12, false, false, false⟩,
     ⟨3, .fin 1, .fin 4, false, false, false⟩⟩,
   ⟨"l_out", "line", BoundedPar.plain 0 .ninf .pinf, BoundedPar.plain 0 .ninf .pinf,
     BoundedPar.plain 7 (.fin 0) .pinf, BoundedPar.plain 99 (.fin 98) (.fin 100),
     BoundedPar.plain 2 (.fin 1) (.fin 4)⟩]

/-- Witness: the C5 ingest theorem applied to the concrete fitter and
table; the unregistered row survives bit-identical. -/
theorem ingest_updates_components_only_witness :
    c5TblAfter.length = c5Tbl.length ∧
    (∀ i row, c5Tbl.get? i = some row →
      row.fname ∉ fitter_components c5Fitter →
      c5TblAfter.get? i = some row) ∧
    (∀ i row, c5Tbl.get? i = some row →
      row.fname ∈ fitter_components c5Fitter →
      ∃ res, get_result c5Fitter row.fname = .ok res ∧
        c5TblAfter.get? i = some (update_row_with_result res row)) :=
  ingest_updates_components_only c5Fitter c5Tbl c5TblAfter (by decide)
    (by
      simp [ingest_fit_result_to_features, ingestGo, fitter_components,
        get_result, getAttrValue, Component.paramValue, Component.cname,
        FitterState.typeOf, update_row_with_result, FeatureRow.setColVal,
        FeatureRow.setParVal, colOfString, c5Fitter, c5Tbl, c5TblAfter,
        finalize_model, register_line, register_component, FitterState.setType,
        astropy_model_kwargs, boundEntry, BoundedPar.divPos, FVal.divPos,
        fwhmToStddevFactor, CompoundModel.submodels, BoundedPar.plain,
        fitterClear]
      rfl)

/- ---------------------------------------------------------------------
   Model.guess (model.py lines 146-302). The estimate functions are
   passed to loop_over_non_fixed exactly as in the source; the starlight
   and dust-continuum estimates (which evaluate the blackbody exponential
   and the interpolated spectrum) are abstracted as injected functions,
   as are the two instrument collaborators (external interfaces).
   --------------------------------------------------------------------- -/

/-- The context available to Model.guess: the instrument collaborators
(within_segment and the value slot of instrument.fwhm), the two
continuum estimate functions defined inside guess (abstracted since
their blackbody/interpolation formulas are irrational-valued and play no
role in the fixed-parameter and line-power logic), and the
redshift-corrected spectrum arrays xz, yz. -/
structure GuessContext where
  withinSeg : ℚ → Bool
  instFwhmVal : ℚ → ℚ
  starlightGuessFun : FeatureRow → ℚ
  dustContinuumGuessFun : FeatureRow → ℚ
  xz : List ℚ
  yz : List ℚ

/-- Insertion into a sorted list (used to model the sort inside
np.median). -/
def insertSorted (x : ℚ) : List ℚ → List ℚ
  | [] => [x]
  | y :: ys => if x ≤ y then x :: y :: ys else y :: insertSorted x ys

/-- Sorting a list of rationals (insertion sort; np.median only needs
some sort). -/
def sortQ (l : List ℚ) : List ℚ := l.foldr insertSorted []

/-- np.median: middle element of the sorted data for odd length, mean of
the two middle elements for even length (0 for the empty list, where
numpy would produce nan). -/
def medianQ (l : List ℚ) : ℚ :=
  let s := sortQ l
  let n := s.length
  if n = 0 then 0
  else if n % 2 = 1 then s.getD (n / 2) 0
  else (s.getD (n / 2 - 1) 0 + s.getD (n / 2) 0) / 2

/-- `some_flux = 0.5 * np.median(yz)` (model.py line 201). -/
def some_flux (ctx : GuessContext) : ℚ :=
  1 / 2 * medianQ ctx.yz

/-- np.trapezoid(y, x): sum of (x2 - x1) * (y1 + y2) / 2 over
consecutive sample pairs. -/
def trapezoid : List ℚ → List ℚ → ℚ
  | y1 :: y2 :: ys, x1 :: x2 :: xs =>
      (x2 - x1) * (y1 + y2) / 2 + trapezoid (y2 :: ys) (x2 :: xs)
  | _, _ => 0

/-- `line_fwhm_guess` (model.py lines 258-264): 0 for a line outside the
instrument segments, otherwise the instrument fwhm at the line
wavelength. -/
def line_fwhm_guess (ctx : GuessContext) (row : FeatureRow) : ℚ :=
  let w := row.wavelength.val
  if !(ctx.withinSeg w) then 0
  else ctx.instFwhmVal w

/-- `amp_guess` (model.py lines 266-286): trapezoidal integral of the
flux inside the window of plus/minus 1.5 fwhm around the line center;
the linear continuum estimate is subtracted only when it is smaller than
the integral; fewer than two window samples give 0; the result is
divided by the fwhm. The spectrum samples are paired as (xz, yz). -/
def amp_guess (ctx : GuessContext) (row : FeatureRow) (fwhm : ℚ) : ℚ :=
  let w := row.wavelength.val
  if !(ctx.withinSeg w) then 0
  else
    let factor : ℚ := 3 / 2
    let wmin := w - factor * fwhm
    let wmax := w + factor * fwhm
    let window := (ctx.xz.zip ctx.yz).filter
      (fun p => decide (wmin < p.1) && decide (p.1 < wmax))
    let xpoints := window.map (fun p => p.1)
    let ypoints := window.map (fun p => p.2)
    let power_guess :=
      if 2 ≤ window.length then
        let pg := trapezoid ypoints xpoints
        let continuum := (ypoints.headD 0 + ypoints.getLastD 0) / 2 *
          (xpoints.getLastD 0 - xpoints.headD 0)
        if continuum < pg then pg - continuum else pg
      else 0
    power_guess / fwhm

/-- The per-row body of `loop_over_non_fixed` (model.py lines 207-213):
update the parameter of rows of the chosen kind when the parameter is
not fixed, or unconditionally when force is set. -/
def loopRowUpdate (kind param : String) (estimate : FeatureRow → ℚ)
    (force : Bool) (row : FeatureRow) : FeatureRow :=
  if row.kind == kind then
    match row.getCol? param with
    | some p =>
        if !(bounded_is_fixed p) || force then
          row.setColVal param (estimate row)
        else row
    | none => row
  else row

/-- `loop_over_non_fixed`: each selected row is read and updated once,
so the loop is a map of the per-row body. -/
def loop_over_non_fixed (kind param : String) (estimate : FeatureRow → ℚ)
    (force : Bool) (tbl : List FeatureRow) : List FeatureRow :=
  tbl.map (loopRowUpdate kind param estimate force)

/-- `Model.guess` on the features table (model.py lines 231-302): the
five estimate passes in source order; the line power pass depends on
integrate_line_flux, and the final fwhm pass (with force) runs only when
calc_line_fwhm is set. -/
def guess_features (ctx : GuessContext)
    (integrate_line_flux calc_line_fwhm : Bool)
    (tbl : List FeatureRow) : List FeatureRow :=
  let t1 := loop_over_non_fixed "starlight" "tau" ctx.starlightGuessFun false tbl
  let t2 := loop_over_non_fixed "dust_continuum" "tau"
    ctx.dustContinuumGuessFun false t1
  let t3 := loop_over_non_fixed "dust_feature" "power"
    (fun _ => some_flux ctx) false t2
  let t4 :=
    if integrate_line_flux then
      loop_over_non_fixed "line" "power"
        (fun row => amp_guess ctx row (line_fwhm_guess ctx row)) false t3
    else
      loop_over_non_fixed "line" "power" (fun _ => some_flux ctx) false t3
  if calc_line_fwhm then
    loop_over_non_fixed "line" "fwhm"
      (fun row => line_fwhm_guess ctx row) true t4
  else t4

/-- The canonical string name of each parameter column. -/
def stringOfCol : ParamCol → String
  | .temperature => "temperature"
  | .tau => "tau"
  | .power => "power"
  | .wavelength => "wavelength"
  | .fwhm => "fwhm"

theorem colOfString_eq_some (c : String) (pc : ParamCol) :
    colOfString c = some pc ↔ c = stringOfCol pc := by
  constructor
  · intro h
    unfold colOfString at h
    split_ifs at h <;> (cases h; simp_all [stringOfCol])
  · intro h
    subst h
    cases pc <;> decide

theorem getPar_setParVal_ne (r : FeatureRow) (c c' : ParamCol) (v : ℚ)
    (h : c ≠ c') : (r.setParVal c' v).getPar c = r.getPar c := by
  cases c <;> cases c' <;> first | exact absurd rfl h | rfl

theorem setParVal_kind (r : FeatureRow) (c : ParamCol) (v : ℚ) :
    (r.setParVal c v).kind = r.kind := by
  cases c <;> rfl

theorem setColVal_kind (r : FeatureRow) (c : String) (v : ℚ) :
    (r.setColVal c v).kind = r.kind := by
  unfold FeatureRow.setColVal
  cases colOfString c <;> simp [setParVal_kind]

theorem getCol?_setColVal_ne (r : FeatureRow) (c c' : String) (v : ℚ)
    (h : c ≠ c') : (r.setColVal c' v).getCol? c = r.getCol? c := by
  unfold FeatureRow.setColVal FeatureRow.getCol?
  cases h1 : colOfString c' with
  | none => rfl
  | some pc' =>
      cases h2 : colOfString c with
      | none => simp [h2]
      | some pc =>
          have hcc : pc ≠ pc' := by
            intro he
            subst he
            rw [(colOfString_eq_some _ _).1 h1] at h
            rw [(colOfString_eq_some _ _).1 h2] at h
            exact h rfl
          simp [h2, getPar_setParVal_ne r pc pc' v hcc]

theorem loopRowUpdate_preserve (kind param : String) (est : FeatureRow → ℚ)
    (force : Bool) (row : FeatureRow) (c : String) (p : BoundedPar)
    (hc : row.getCol? c = some p) (hfix : bounded_is_fixed p = true)
    (hx : force = true → ¬(row.kind = kind ∧ c = param)) :
    (loopRowUpdate kind param est force row).getCol? c = some p ∧
    (loopRowUpdate kind param est force row).kind = row.kind := by
  unfold loopRowUpdate
  by_cases hk : (row.kind == kind) = true
  · simp only [hk, if_true]
    cases hp : row.getCol? param with
    | none => exact ⟨hc, rfl⟩
    | some q =>
        by_cases hcp : c = param
        · have hqp : q = p := by
            rw [hcp] at hc
            exact Option.some_inj.mp (hp.symm.trans hc)
          cases hforce : force with
          | true =>
              exact absurd ⟨by simpa using hk, hcp⟩ (hx hforce)
          | false =>
              rw [← hqp] at hfix
              simp [hfix]
              exact hc
        · by_cases hcond : (!(bounded_is_fixed q) || force) = true
          · simp only [hcond, if_true]
            exact ⟨by rw [getCol?_setColVal_ne row c param _ hcp]; exact hc,
              setColVal_kind row param _⟩
          · simp only [Bool.not_eq_true] at hcond
            simp [hcond]
            exact hc
  · simp only [Bool.not_eq_true] at hk
    simp [hk]
    exact hc

theorem guess_features_eq (ctx : GuessContext)
    (integrate_line_flux calc_line_fwhm : Bool) (tbl : List FeatureRow) :
    guess_features ctx integrate_line_flux calc_line_fwhm tbl =
      (let t4 := loop_over_non_fixed "line" "power"
          (if integrate_line_flux then
            (fun row => amp_guess ctx row (line_fwhm_guess ctx row))
          else (fun _ => some_flux ctx)) false
          (loop_over_non_fixed "dust_feature" "power" (fun _ => some_flux ctx)
            false
            (loop_over_non_fixed "dust_continuum" "tau"
              ctx.dustContinuumGuessFun false
              (loop_over_non_fixed "starlight" "tau" ctx.starlightGuessFun
                false tbl)));
       if calc_line_fwhm then
         loop_over_non_fixed "line" "fwhm" (fun row => line_fwhm_guess ctx row)
           true t4
       else t4) := by
  cases integrate_line_flux <;> cases calc_line_fwhm <;> rfl

/-- Claim C7 (amended): Model.guess leaves every fixed parameter value
untouched, for every combination of the integrate_line_flux and
calc_line_fwhm options, with one exception: when calc_line_fwhm is
enabled, the fwhm column of every line row is overwritten with the
instrument-derived value regardless of its fixed flag, because the final
guess pass runs loop_over_non_fixed with force=True. -/
theorem guess_preserves_fixed_params (ctx : GuessContext)
    (integrate_line_flux calc_line_fwhm : Bool) (tbl : List FeatureRow)
    (i : ℕ) (row : FeatureRow) (hi : tbl.get? i = some row)
    (c : String) (p : BoundedPar)
    (hc : row.getCol? c = some p) (hfix : bounded_is_fixed p = true)
    (hnc : ¬(calc_line_fwhm = true ∧ row.kind = "line" ∧ c = "fwhm")) :
    ∃ row',
      (guess_features ctx integrate_line_flux calc_line_fwhm tbl).get? i
        = some row' ∧ row'.getCol? c = some p := by
  rw [guess_features_eq]
  have h1 := loopRowUpdate_preserve "starlight" "tau" ctx.starlightGuessFun
    false row c p hc hfix (by simp)
  have h2 := loopRowUpdate_preserve "dust_continuum" "tau"
    ctx.dustContinuumGuessFun false _ c p h1.1 hfix (by simp)
  have h3 := loopRowUpdate_preserve "dust_feature" "power"
    (fun _ => some_flux ctx) false _ c p h2.1 hfix (by simp)
  have h4 := loopRowUpdate_preserve "line" "power"
    (if integrate_line_flux then
      (fun row => amp_guess ctx row (line_fwhm_guess ctx row))
    else (fun _ => some_flux ctx)) false _ c p h3.1 hfix (by simp)
  cases hcalc : calc_line_fwhm with
  | false =>
      refine ⟨_, ?_, h4.1⟩
      simp only [Bool.false_eq_true, if_false, loop_over_non_fixed,
        List.get?_map, hi, Option.map_some']
  | true =>
      have hkind4 := (h4.2.trans h3.2).trans (h2.2.trans h1.2)
      have h5 := loopRowUpdate_preserve "line" "fwhm"
        (fun row => line_fwhm_guess ctx row) true _ c p h4.1 hfix
        (fun _ hcase => hnc ⟨hcalc, hkind4 ▸ hcase.1, hcase.2⟩)
      refine ⟨_, ?_, h5.1⟩
      simp only [if_true, loop_over_non_fixed, List.get?_map, hi,
        Option.map_some']

/-- Concrete guess context for the C7 theorems: everything in segment,
instrument fwhm 7 everywhere, trivial continuum estimates, and a
three-sample spectrum (xz = [0,1,2], yz = [2,4,6]) so that the eager
prelude of the real Model.guess (min(xz) at model.py line 197 and
interp1d(xz, yz) at line 204) succeeds and the estimate passes are
reached. -/
def c7Ctx : GuessContext :=
  ⟨fun _ => true, fun _ => 7, fun _ => 0, fun _ => 0, [0, 1, 2], [2, 4, 6]⟩

/-- Concrete line row with a fixed power (value 1) and a fixed fwhm
(value 5): both bound slots masked. -/
def c7Row : FeatureRow :=
  ⟨"lineA", "line", BoundedPar.plain 0 .ninf .pinf, BoundedPar.plain 0 .ninf .pinf,
   ⟨1, .fin 0, .fin 0, false, true, true⟩,
   BoundedPar.plain 10 (.fin 9) (.fin 11),
   ⟨5, .fin 0, .fin 0, false, true, true⟩⟩

/-- The row after Model.guess with calc_line_fwhm on: the fixed fwhm
value has been replaced by the instrument value 7. -/
def c7RowAfter : FeatureRow :=
  ⟨"lineA", "line", BoundedPar.plain 0 .ninf .pinf, BoundedPar.plain 0 .ninf .pinf,
   ⟨1, .fin 0, .fin 0, false, true, true⟩,
   BoundedPar.plain 10 (.fin 9) (.fin 11),
   ⟨7, .fin 0, .fin 0, false, true, true⟩⟩

/-- Counterexample to claim C7 as stated: a line row whose fwhm is fixed
(both bounds masked, value 5) has that value overwritten with the
instrument value 7 by Model.guess when calc_line_fwhm is enabled. -/
theorem guess_overwrites_fixed_fwhm_counterexample :
    bounded_is_fixed c7Row.fwhm = true ∧
    guess_features c7Ctx false true [c7Row] = [c7RowAfter] ∧
    c7Row.fwhm.val = 5 ∧ c7RowAfter.fwhm.val = 7 := by
  decide

/-- Witness: the amended C7 theorem applied to the fixed power column of
the concrete line row, which survives the guess untouched. -/
theorem guess_preserves_fixed_params_witness :
    ∃ row', (guess_features c7Ctx false true [c7Row]).get? 0 = some row' ∧
      row'.getCol? "power" = some ⟨1, .fin 0, .fin 0, false, true, true⟩ :=
  guess_preserves_fixed_params c7Ctx false true [c7Row] 0 c7Row (by decide)
    "power" ⟨1, .fin 0, .fin 0, false, true, true⟩ (by decide) (by decide)
    (by decide)

theorem loopRowUpdate_kind_ne (kind param : String) (est : FeatureRow → ℚ)
    (force : Bool) (row : FeatureRow) (h : row.kind ≠ kind) :
    loopRowUpdate kind param est force row = row := by
  simp [loopRowUpdate, h]

theorem setColVal_power_val (r : FeatureRow) (v : ℚ) :
    (r.setColVal "power" v).power.val = v := by
  rfl

theorem setColVal_fwhm_power (r : FeatureRow) (v : ℚ) :
    (r.setColVal "fwhm" v).power = r.power := by
  rfl

theorem getCol?_power (r : FeatureRow) :
    r.getCol? "power" = some r.power := by
  rfl

theorem loopRowUpdate_line_power (est : FeatureRow → ℚ) (r : FeatureRow)
    (hk : r.kind = "line") (hnf : bounded_is_fixed r.power = false) :
    loopRowUpdate "line" "power" est false r = r.setColVal "power" (est r) := by
  simp [loopRowUpdate, hk, getCol?_power, hnf]

theorem loopRowUpdate_fwhm_power (kind : String) (est : FeatureRow → ℚ)
    (force : Bool) (x : FeatureRow) :
    (loopRowUpdate kind "fwhm" est force x).power = x.power := by
  unfold loopRowUpdate
  by_cases hk2 : (x.kind == kind) = true
  · simp only [hk2, if_true]
    rw [show x.getCol? "fwhm" = some x.fwhm from rfl]
    by_cases hcond : (!(bounded_is_fixed x.fwhm) || force) = true
    · simp [hcond, setColVal_fwhm_power]
    · simp [hcond]
  · simp [hk2]

/-- The plus/minus 1.5 fwhm window of spectrum samples around the line
center (the window of claim C8). -/
def guess_window (ctx : GuessContext) (row : FeatureRow) (fwhm : ℚ) :
    List (ℚ × ℚ) :=
  (ctx.xz.zip ctx.yz).filter
    (fun p => decide (row.wavelength.val - 3 / 2 * fwhm < p.1) &&
      decide (p.1 < row.wavelength.val + 3 / 2 * fwhm))

/-- The trapezoidal integral of the flux over the window (claim C8). -/
def guess_integral (ctx : GuessContext) (row : FeatureRow) (fwhm : ℚ) : ℚ :=
  trapezoid ((guess_window ctx row fwhm).map (fun p => p.2))
    ((guess_window ctx row fwhm).map (fun p => p.1))

/-- The linear local-continuum estimate over the window (claim C8):
mean of the first and last window flux, times the window width. -/
def guess_continuum (ctx : GuessContext) (row : FeatureRow) (fwhm : ℚ) : ℚ :=
  (((guess_window ctx row fwhm).map (fun p => p.2)).headD 0 +
    ((guess_window ctx row fwhm).map (fun p => p.2)).getLastD 0) / 2 *
  (((guess_window ctx row fwhm).map (fun p => p.1)).getLastD 0 -
    ((guess_window ctx row fwhm).map (fun p => p.1)).headD 0)

/-- The line power guess exactly as claim C8 states it: trapezoidal
integral minus the linear continuum estimate, clamped so the result is
never negative. For comparison against the source amp_guess. -/
def claimed_line_power_guess (ctx : GuessContext) (row : FeatureRow)
    (fwhm : ℚ) : ℚ :=
  max (guess_integral ctx row fwhm - guess_continuum ctx row fwhm) 0

/-- Claim C8 (amended): with flux integration enabled, the guessed power
of a non-fixed in-range line is the trapezoidal flux integral over the
plus/minus 1.5 fwhm window with the linear local-continuum estimate
subtracted only when that estimate is strictly smaller than the integral
(when it is not, the unsubtracted integral is kept rather than clamping
the difference at zero), all divided by the line fwhm; an out-of-range
line or a window with fewer than two samples gives 0. With integration
disabled, the guessed power is the flat reference level of half the
median flux. -/
theorem line_power_guess_amended (ctx : GuessContext) (row : FeatureRow)
    (fwhm : ℚ) :
    (ctx.withinSeg row.wavelength.val = false → amp_guess ctx row fwhm = 0) ∧
    (ctx.withinSeg row.wavelength.val = true →
      ((guess_window ctx row fwhm).length < 2 → amp_guess ctx row fwhm = 0) ∧
      (2 ≤ (guess_window ctx row fwhm).length → fwhm ≠ 0 →
        amp_guess ctx row fwhm * fwhm =
          if guess_continuum ctx row fwhm < guess_integral ctx row fwhm then
            guess_integral ctx row fwhm - guess_continuum ctx row fwhm
          else guess_integral ctx row fwhm)) ∧
    (∀ (calcF : Bool) (tbl : List FeatureRow) (i : ℕ) (r : FeatureRow),
      tbl.get? i = some r → r.kind = "line" →
      bounded_is_fixed r.power = false →
      (∃ r', (guess_features ctx true calcF tbl).get? i = some r' ∧
        r'.power.val = amp_guess ctx r (line_fwhm_guess ctx r)) ∧
      (∃ r', (guess_features ctx false calcF tbl).get? i = some r' ∧
        r'.power.val = some_flux ctx)) := by
  refine ⟨?_, ?_, ?_⟩
  · intro h
    simp [amp_guess, h]
  · intro h
    constructor
    · intro hlen
      simp only [guess_window] at hlen
      simp only [amp_guess, guess_window, h, Bool.not_true,
        Bool.false_eq_true, if_false]
      rw [if_neg (by omega)]
      exact zero_div fwhm
    · intro hlen hf
      simp only [amp_guess, guess_window, h, Bool.not_true,
        Bool.false_eq_true, if_false]
      rw [if_pos (by simpa [guess_window] using hlen)]
      rw [div_mul_cancel₀ _ hf]
      simp only [guess_integral, guess_continuum, guess_window]
  · intro calcF tbl i r hi hk hnf
    have hne1 : r.kind ≠ "starlight" := by rw [hk]; decide
    have hne2 : r.kind ≠ "dust_continuum" := by rw [hk]; decide
    have hne3 : r.kind ≠ "dust_feature" := by rw [hk]; decide
    constructor
    · rw [guess_features_eq]
      cases hcalc : calcF with
      | false =>
          simp only [Bool.false_eq_true, if_false, if_true,
            loop_over_non_fixed, List.get?_map, hi, Option.map_some']
          refine ⟨_, rfl, ?_⟩
          rw [loopRowUpdate_kind_ne _ _ _ _ r hne1,
            loopRowUpdate_kind_ne _ _ _ _ r hne2,
            loopRowUpdate_kind_ne _ _ _ _ r hne3,
            loopRowUpdate_line_power _ r hk hnf, setColVal_power_val]
      | true =>
          simp only [if_true, loop_over_non_fixed, List.get?_map, hi,
            Option.map_some']
          refine ⟨_, rfl, ?_⟩
          rw [loopRowUpdate_fwhm_power,
            loopRowUpdate_kind_ne _ _ _ _ r hne1,
            loopRowUpdate_kind_ne _ _ _ _ r hne2,
            loopRowUpdate_kind_ne _ _ _ _ r hne3,
            loopRowUpdate_line_power _ r hk hnf, setColVal_power_val]
    · rw [guess_features_eq]
      cases hcalc : calcF with
      | false =>
          simp only [Bool.false_eq_true, if_false,
            loop_over_non_fixed, List.get?_map, hi, Option.map_some']
          refine ⟨_, rfl, ?_⟩
          rw [loopRowUpdate_kind_ne _ _ _ _ r hne1,
            loopRowUpdate_kind_ne _ _ _ _ r hne2,
            loopRowUpdate_kind_ne _ _ _ _ r hne3,
            loopRowUpdate_line_power _ r hk hnf, setColVal_power_val]
      | true =>
          simp only [if_true, Bool.false_eq_true, if_false,
            loop_over_non_fixed, List.get?_map, hi, Option.map_some']
          refine ⟨_, rfl, ?_⟩
          rw [loopRowUpdate_fwhm_power,
            loopRowUpdate_kind_ne _ _ _ _ r hne1,
            loopRowUpdate_kind_ne _ _ _ _ r hne2,
            loopRowUpdate_kind_ne _ _ _ _ r hne3,
            loopRowUpdate_line_power _ r hk hnf, setColVal_power_val]

/-- Concrete guess context for the C8 theorems: all wavelengths in
segment, instrument fwhm 2, spectrum xz = [0,1,2], yz = [0,4,0]. -/
def c8Ctx : GuessContext :=
  ⟨fun _ => true, fun _ => 2, fun _ => 0, fun _ => 0, [0, 1, 2], [0, 4, 0]⟩

/-- Concrete non-fixed line at wavelength 1 for the C8 theorems. -/
def c8Row : FeatureRow :=
  ⟨"lineB", "line", BoundedPar.plain 0 .ninf .pinf, BoundedPar.plain 0 .ninf .pinf,
   BoundedPar.plain 1 (.fin 0) .pinf, BoundedPar.plain 1 (.fin 0) (.fin 30),
   BoundedPar.plain 1 (.fin 0) (.fin 9)⟩

/-- The row after Model.guess with flux integration on: the guessed
power is 2 (the window integral 4, minus nothing since the continuum
estimate is 0, divided by the instrument fwhm 2). -/
def c8RowAfter : FeatureRow :=
  ⟨"lineB", "line", BoundedPar.plain 0 .ninf .pinf, BoundedPar.plain 0 .ninf .pinf,
   BoundedPar.plain 2 (.fin 0) .pinf, BoundedPar.plain 1 (.fin 0) (.fin 30),
   BoundedPar.plain 1 (.fin 0) (.fin 9)⟩

/-- Counterexample to claim C8 as stated: for the spectrum
xz = [0,1,2], yz = [0,4,0] and a line at wavelength 1 with instrument
fwhm 2, the window integral is 4 and the continuum estimate is 0, so the
claimed guess (integral minus continuum, clamped at zero) is 4; but the
code divides by the fwhm and stores power 2. -/
theorem line_power_guess_counterexample :
    guess_features c8Ctx true false [c8Row] = [c8RowAfter] ∧
    c8RowAfter.power.val = 2 ∧
    claimed_line_power_guess c8Ctx c8Row (line_fwhm_guess c8Ctx c8Row) = 4 ∧
    ((2 : ℚ) = 4 → False) := by
  refine ⟨?_, rfl, ?_, by norm_num⟩
  · simp [guess_features, loop_over_non_fixed, loopRowUpdate,
      amp_guess, line_fwhm_guess, trapezoid, c8Ctx, c8Row, c8RowAfter,
      FeatureRow.getCol?, FeatureRow.setColVal, FeatureRow.setParVal,
      FeatureRow.getPar, colOfString, bounded_is_fixed, BoundedPar.plain,
      List.filter]
    norm_num [trapezoid]
  · simp [claimed_line_power_guess, guess_integral, guess_continuum,
      guess_window, line_fwhm_guess, trapezoid, c8Ctx, c8Row,
      BoundedPar.plain, List.filter]
    norm_num [trapezoid]

/-- Witness: the amended C8 theorem applied to the concrete context and
line row, integration enabled. -/
theorem line_power_guess_amended_witness :
    ∃ r', (guess_features c8Ctx true false [c8Row]).get? 0 = some r' ∧
      r'.power.val = amp_guess c8Ctx c8Row (line_fwhm_guess c8Ctx c8Row) :=
  ((line_power_guess_amended c8Ctx c8Row 2).2.2 false [c8Row] 0 c8Row
    (by decide) (by decide) (by decide)).1

/- ---------------------------------------------------------------------
   component_models.py: the S07 attenuation profile. Modelled over the
   reals because the curve involves the exponential and a real power.
   --------------------------------------------------------------------- -/

/-- The tabulated KVT extinction curve wavelengths (component_models.py
lines 245-248). -/
noncomputable def kvt_wav : List ℝ :=
  [8.0, 8.2, 8.4, 8.6, 8.8, 9.0, 9.2, 9.4, 9.6, 9.7, 9.75, 9.8, 10.0,
   10.2, 10.4, 10.6, 10.8, 11.0, 11.2, 11.4, 11.6, 11.8, 12.0, 12.2,
   12.4, 12.6, 12.7]

/-- The tabulated KVT extinction curve intensities (component_models.py
lines 250-252). -/
noncomputable def kvt_int : List ℝ :=
  [0.06, 0.09, 0.16, 0.275, 0.415, 0.575, 0.755, 0.895, 0.98, 0.99, 1.0,
   0.99, 0.94, 0.83, 0.745, 0.655, 0.58, 0.525, 0.43, 0.35, 0.27, 0.20,
   0.13, 0.09, 0.06, 0.045, 0.04314]

/-- Piecewise-linear interpolation through a list of sample points
(scipy interp1d with the default linear kind; the callers pass sorted
in-range wavelength grids). -/
noncomputable def linInterp : List (ℝ × ℝ) → ℝ → ℝ
  | [], _ => 0
  | [(_, y1)], _ => y1
  | (x1, y1) :: (x2, y2) :: rest, x =>
      if x ≤ x2 then y1 + (y2 - y1) * (x - x1) / (x2 - x1)
      else linInterp ((x2, y2) :: rest) x

/-- The astropy Drude1D profile used for the long-wavelength extension
of the curve. -/
noncomputable def drude1D (amplitude x_0 fwhm x : ℝ) : ℝ :=
  amplitude * (fwhm / x_0) ^ 2 / ((x / x_0 - x_0 / x) ^ 2 + (fwhm / x_0) ^ 2)

/-- `S07_attenuation.kvt` (component_models.py lines 239-285) on a
sorted wavelength grid: the tabulated curve, extended below 8 micron by
an exponential stitched to the curve start (the numpy test
`min(in_x) < min(kvt_wav)` becomes: the filtered short-wavelength list
is nonempty; the numpy max of the positive exponential values is
modelled as a fold of max over them), interpolated linearly up to 12.7
micron, continued above 12.7 by a fixed Drude profile, and blended with
the (9.7/lambda)^1.7 power law with weight beta = 0.1. -/
noncomputable def kvt_curve (in_x : List ℝ) : List ℝ :=
  let kvt_wav_short := in_x.filter (fun x => decide (x < 8))
  let spline :=
    if kvt_wav_short.isEmpty then kvt_wav.zip kvt_int
    else
      let kvt_int_short_tmp := kvt_wav_short.map
        (fun w => 0.04314 * Real.exp (2.03 * (w - 8)))
      let maxTmp := kvt_int_short_tmp.foldr max 0
      let kvt_int_short := kvt_int_short_tmp.map (fun y => y * (0.06 / maxTmp))
      (kvt_wav_short ++ kvt_wav).zip (kvt_int_short ++ kvt_int)
  let in_x_spline := in_x.filter (fun x => decide (x < 12.7))
  let new_spline_y := in_x_spline.map (linInterp spline)
  let in_x_drude := in_x.filter (fun x => decide (12.7 ≤ x))
  let ext := new_spline_y ++ in_x_drude.map (drude1D 0.4 18.0 (0.247 * 18.0))
  List.zipWith (fun e x => (1 - 0.1) * e + 0.1 * (9.7 / x) ^ (1.7 : ℝ))
    ext in_x

/-- `S07_attenuation.evaluate` (component_models.py lines 287-292): with
tau_sil = 0, return `np.full((len(in_x)), 1.0)` without touching the
attenuation expression; otherwise evaluate
(1 - exp(-tau(x))) / tau(x) with tau(x) = tau_sil * kvt(x) pointwise. -/
noncomputable def S07_attenuation_evaluate (in_x : List ℝ) (tau_si : ℝ) :
    List ℝ :=
  if tau_si = 0 then List.replicate in_x.length 1
  else (kvt_curve in_x).map
    (fun k => (1 - Real.exp (-1 * (tau_si * k))) / (tau_si * k))

/-- Claim C9: S07_attenuation.evaluate at tau_sil = 0 returns an array
of exact ones of the same length as the input, for every input
wavelength list; the (1 - exp(-tau))/tau expression in the other branch
is never evaluated, so its 0/0 case is unreachable. -/
theorem s07_tau_zero_all_ones (in_x : List ℝ) :
    S07_attenuation_evaluate in_x 0 = List.replicate in_x.length 1 := by
  simp [S07_attenuation_evaluate]

/- ---------------------------------------------------------------------
   Features table metadata assignments in Model.guess and Model.fit.
   --------------------------------------------------------------------- -/

/-- A metadata value: a string (such as an instrument identifier) or a
number (such as a redshift). -/
inductive MetaVal
  | str (s : String)
  | num (q : ℚ)
deriving DecidableEq

/-- The features table metadata dict. -/
def MetaMap : Type := String → Option MetaVal

/-- Dict assignment `meta[key] = v`. -/
def metaSet (m : MetaMap) (k : String) (v : MetaVal) : MetaMap :=
  fun k' => if k' = k then some v else m k'

/-- The two metadata assignments executed near the start of Model.guess
(model.py lines 191-192): `self.features.meta["redshift"] = inst`
followed by `self.features.meta["instrument"] = z`, where inst is the
instrument identifier and z the numeric redshift. -/
def guess_meta_update (m : MetaMap) (inst : String) (z : ℚ) : MetaMap :=
  metaSet (metaSet m "redshift" (.str inst)) "instrument" (.num z)

/-- The identical pair of assignments executed by Model.fit (model.py
lines 395-396). -/
def fit_meta_update (m : MetaMap) (inst : String) (z : ℚ) : MetaMap :=
  metaSet (metaSet m "redshift" (.str inst)) "instrument" (.num z)

/-- Claim C10: after the metadata updates of Model.guess and Model.fit,
the entry keyed "redshift" holds the instrument identifier and the entry
keyed "instrument" holds the numeric redshift — each value is stored
under the other quantity's key. -/
theorem meta_keys_swapped (m : MetaMap) (inst : String) (z : ℚ) :
    guess_meta_update m inst z "redshift" = some (.str inst) ∧
    guess_meta_update m inst z "instrument" = some (.num z) ∧
    fit_meta_update m inst z "redshift" = some (.str inst) ∧
    fit_meta_update m inst z "instrument" = some (.num z) := by
  refine ⟨?_, ?_, ?_, ?_⟩ <;>
    simp [guess_meta_update, fit_meta_update, metaSet]

/- ---------------------------------------------------------------------
   Model._construct_model (model.py lines 797-885): dispatch every
   non-excluded row to the matching register_* call, then finalize.
   --------------------------------------------------------------------- -/

theorem register_starlight_types (s : FitterState) (nm : String)
    (temperature tau : BoundedPar) :
    (register_starlight s nm temperature tau).component_types =
      s.component_types ++ [(nm, "starlight")] := by
  simp [register_starlight, register_component, FitterState.setType]

theorem register_dust_continuum_types (s : FitterState) (nm : String)
    (temperature tau : BoundedPar) :
    (register_dust_continuum s nm temperature tau).component_types =
      s.component_types ++ [(nm, "dust_continuum")] := by
  simp [register_dust_continuum, register_component, FitterState.setType]

theorem register_dust_feature_types (s : FitterState) (nm : String)
    (power wavelength fwhm : BoundedPar) :
    (register_dust_feature s nm power wavelength fwhm).component_types =
      s.component_types ++ [(nm, "dust_feature")] := by
  simp [register_dust_feature, register_component, FitterState.setType]

theorem register_attenuation_types (s : FitterState) (nm : String)
    (tau : BoundedPar) :
    (register_attenuation s nm tau).component_types =
      s.component_types ++ [(nm, "attenuation")] := by
  simp [register_attenuation, register_component, FitterState.setType]

theorem register_absorption_types (s : FitterState) (nm : String)
    (tau wavelength fwhm : BoundedPar) :
    (register_absorption s nm tau wavelength fwhm).component_types =
      s.component_types ++ [(nm, "absorption")] := by
  simp [register_absorption, register_component, FitterState.setType]

/-- The registration loop of `Model._construct_model`: dispatch each row
on its kind; a line uses the instrument fwhm at the observed-frame
wavelength, converted back to the rest frame by dividing by (1 + z),
when use_instrument_fwhm is set; an unknown kind raises. The instrument
fwhm collaborator (instFwhm, a function of the observed wavelength
returning a bounded triple) is external. -/
def construct_model_go (withinSeg : ℚ → Bool) (instFwhm : ℚ → BoundedPar)
    (redshift : ℚ) (use_instrument_fwhm : Bool) :
    FitterState → List FeatureRow → Except PahfitError FitterState
  | s, [] => .ok s
  | s, row :: rest =>
      if row.kind = "starlight" then
        construct_model_go withinSeg instFwhm redshift use_instrument_fwhm
          (register_starlight s row.fname row.temperature row.tau) rest
      else if row.kind = "dust_continuum" then
        construct_model_go withinSeg instFwhm redshift use_instrument_fwhm
          (register_dust_continuum s row.fname row.temperature row.tau) rest
      else if row.kind = "line" then
        let fwhm :=
          if use_instrument_fwhm then
            (instFwhm (row.wavelength.val * (1 + redshift))).divPos
              (1 + redshift)
          else row.fwhm
        construct_model_go withinSeg instFwhm redshift use_instrument_fwhm
          (register_line s row.fname row.power row.wavelength fwhm) rest
      else if row.kind = "dust_feature" then
        construct_model_go withinSeg instFwhm redshift use_instrument_fwhm
          (register_dust_feature s row.fname row.power row.wavelength
            row.fwhm) rest
      else if row.kind = "attenuation" then
        construct_model_go withinSeg instFwhm redshift use_instrument_fwhm
          (register_attenuation s row.fname row.tau) rest
      else if row.kind = "absorption" then
        construct_model_go withinSeg instFwhm redshift use_instrument_fwhm
          (register_absorption s row.fname row.tau row.wavelength
            row.fwhm) rest
      else .error (.unsupportedKind row.kind)

/-- `Model._construct_model`: start a fresh fitter, register every
non-excluded row, finalize. -/
def construct_model (withinSeg : ℚ → Bool) (instFwhm : ℚ → BoundedPar)
    (redshift : ℚ) (use_instrument_fwhm : Bool) (tbl : List FeatureRow) :
    Except PahfitError FitterState :=
  match construct_model_go withinSeg instFwhm redshift use_instrument_fwhm
    fitterClear
    (tbl.filter (fun row => !(excluded_features withinSeg redshift row))) with
  | .error e => .error e
  | .ok s => finalize_model s

theorem construct_model_go_types (withinSeg : ℚ → Bool)
    (instFwhm : ℚ → BoundedPar) (redshift : ℚ) (useF : Bool) :
    ∀ (rows : List FeatureRow) (s s' : FitterState),
      construct_model_go withinSeg instFwhm redshift useF s rows = .ok s' →
      s'.component_types =
        s.component_types ++ rows.map (fun r => (r.fname, r.kind)) := by
  intro rows
  induction rows with
  | nil =>
      intro s s' h
      simp only [construct_model_go] at h
      cases h
      simp
  | cons row rest ih =>
      intro s s' h
      simp only [construct_model_go] at h
      split_ifs at h with h1 h2 h3 h4 h5 h6 h7
      · rw [ih _ _ h, register_starlight_types]
        simp [h1]
      · rw [ih _ _ h, register_dust_continuum_types]
        simp [h2]
      · rw [ih _ _ h, register_line_types]
        simp [h3]
      · rw [ih _ _ h, register_line_types]
        simp [h3]
      · rw [ih _ _ h, register_dust_feature_types]
        simp [h5]
      · rw [ih _ _ h, register_attenuation_types]
        simp [h6]
      · rw [ih _ _ h, register_absorption_types]
        simp [h7]

theorem finalize_model_types (s s' : FitterState)
    (h : finalize_model s = .ok s') :
    s'.component_types = s.component_types := by
  cases hsa : s.additive_components with
  | nil => rw [finalize_model_nil s hsa] at h; cases h
  | cons c cs =>
      rw [finalize_model_cons s c cs hsa] at h
      cases h
      rfl

/-- Claim C4: a row is excluded from registration iff its kind is line,
dust_feature or absorption AND its observed-frame wavelength (stored
wavelength times 1 + redshift) is outside the instrument segments; rows
of kind starlight, dust_continuum or attenuation are never excluded; and
the components registered by _construct_model are exactly the
non-excluded rows, in table order. -/
theorem excluded_features_iff (withinSeg : ℚ → Bool) (redshift : ℚ)
    (row : FeatureRow) :
    ((excluded_features withinSeg redshift row = true) ↔
      ((row.kind = "line" ∨ row.kind = "dust_feature" ∨
        row.kind = "absorption") ∧
        withinSeg (row.wavelength.val * (1 + redshift)) = false)) ∧
    ((row.kind = "starlight" ∨ row.kind = "dust_continuum" ∨
        row.kind = "attenuation") →
      excluded_features withinSeg redshift row = false) ∧
    (∀ (instFwhm : ℚ → BoundedPar) (useF : Bool) (tbl : List FeatureRow)
        (s : FitterState),
      construct_model withinSeg instFwhm redshift useF tbl = .ok s →
      s.component_types.map (fun p => p.1) =
        (tbl.filter
          (fun r => !(excluded_features withinSeg redshift r))).map
          (fun r => r.fname)) := by
  refine ⟨?_, ?_, ?_⟩
  · simp only [excluded_features, Bool.and_eq_true, Bool.or_eq_true,
      beq_iff_eq, Bool.not_eq_true']
    tauto
  · intro hk
    rcases hk with hk | hk | hk <;>
      simp [excluded_features, hk]
  · intro instF useF tbl s hok
    unfold construct_model at hok
    cases hgo : construct_model_go withinSeg instF redshift useF fitterClear
        (tbl.filter (fun row => !(excluded_features withinSeg redshift row)))
        with
    | error e => rw [hgo] at hok; cases hok
    | ok s1 =>
        rw [hgo] at hok
        rw [finalize_model_types s1 s hok,
          construct_model_go_types withinSeg instF redshift useF _ _ _ hgo]
        simp [fitterClear, List.map_map, Function.comp_def]

/-- Concrete in-range dust feature row for the C4 witness. -/
def c4DfRow : FeatureRow :=
  ⟨"df1", "dust_feature", BoundedPar.plain 0 .ninf .pinf,
   BoundedPar.plain 0 .ninf .pinf, BoundedPar.plain 5 (.fin 0) .pinf,
   BoundedPar.plain 10 (.fin 9) (.fin 11), BoundedPar.plain 1 (.fin 0) (.fin 4)⟩

/-- The fitter constructed from the one-row table of the C4 witness. -/
def c4Fitter : FitterState :=
  match construct_model (fun _ => true)
      (fun _ => BoundedPar.plain 0 .ninf .pinf) 0 true [c4DfRow] with
  | .ok s => s
  | .error _ => fitterClear

/-- Witness: the C4 never-excluded part at a concrete starlight row, and
the registration part at the concrete one-row table. -/
theorem excluded_features_iff_witness :
    excluded_features (fun _ => false) 0
      ⟨"star0", "starlight", BoundedPar.plain 5000 (.fin 0) .pinf,
        BoundedPar.plain 1 (.fin 0) .pinf, BoundedPar.plain 0 .ninf .pinf,
        BoundedPar.plain 0 .ninf .pinf, BoundedPar.plain 0 .ninf .pinf⟩
      = false ∧
    c4Fitter.component_types.map (fun p => p.1) =
      ([c4DfRow].filter
        (fun r => !(excluded_features (fun _ => true) 0 r))).map
        (fun r => r.fname) :=
  ⟨(excluded_features_iff (fun _ => false) 0 _).2.1 (Or.inl rfl),
   (excluded_features_iff (fun _ => true) 0 c4DfRow).2.2
     (fun _ => BoundedPar.plain 0 .ninf .pinf) true [c4DfRow] c4Fitter
     (by rfl)⟩
